import Mathlib

/-!
Verification development for the fly-studio cron-cli repository.

The repository schedules shell commands on cron expressions (task.go) with a
small string utility (func.go).  task.go ships in two variants; the first
variant carries a single command string per job, a per-job shell-file artifact
and a stopImpl drain loop, the second carries a command list per job and an
inline drain loop in Stop.  Both are embedded below: namespace V1 models the
first variant, namespace V2 the second.  Time-dependent behaviour (the stop
drain loop) is modelled as a discrete poll loop over milliseconds.
-/

namespace CronCli

/-- Decimal rendering of a nonnegative machine integer, as produced by the
Go fmt verb for decimal integers: most significant digit first, with 0
rendered as the single digit 0. -/
def natStr (n : Nat) : String :=
  if n = 0 then "0" else String.mk (((Nat.digits 10 n).map Nat.digitChar).reverse)

/-- func.go truncateText, with a Go string modelled as its byte list and the
nonnegative case of the Go int argument: return s unchanged when max >= len(s),
otherwise the first max bytes of s followed by three dots. -/
def truncateText (s : List Char) (max : Nat) : List Char :=
  if s.length ≤ max then s else s.take max ++ [Char.ofNat 46, Char.ofNat 46, Char.ofNat 46]

namespace V1

/-- A job specification as consumed by the first variant of task.go: a cron
schedule, one command string, and the overlap mode string. -/
structure Job where
  Name : String
  Schedule : String
  Command : String
  RunningMode : String
deriving DecidableEq

/-- The job wrappers from the robfig cron library that createCronJob chains
around a job. -/
inductive Wrapper where
  | recover
  | delayIfStillRunning
  | skipIfStillRunning
deriving DecidableEq

/-- The wrapper chain built at the top of createCronJob: the recover wrapper
always, then one serialization wrapper selected by the switch on
job.RunningMode (case delay, case skip, no default case). -/
def jobWrappers (runningMode : String) : List Wrapper :=
  [Wrapper.recover] ++
    (if runningMode = "delay" then [Wrapper.delayIfStillRunning]
     else if runningMode = "skip" then [Wrapper.skipIfStillRunning]
     else [])

/-- An entry of the cron trigger table: the assigned id, the schedule, the
wrapper chain and the wrapped job. -/
structure CronEntry where
  id : Nat
  schedule : String
  wrappers : List Wrapper
  job : Job
deriving DecidableEq

/-- A registered job: the specification together with the two fields assigned
during createCronJob (the cron id and the shell file path). -/
structure RegJob where
  base : Job
  id : Nat
  shellFile : String
deriving DecidableEq

/-- The state of a Task that the embedded operations read and write: the Jobs
collection, the cron trigger table with its id counter, the set of shell files
on disk, and the testMode flag. -/
structure TaskState where
  Jobs : List RegJob
  cronEntries : List CronEntry
  nextId : Nat
  files : List String
  testMode : Bool
deriving DecidableEq

/-- Models Cron.AddJob of the robfig cron library: parse the schedule
(validity of a cron expression is abstracted into the parameter valid), and on
success append a table entry under a fresh id. On parse failure nothing is
registered. -/
def cronAddJob (valid : String → Bool) (st : TaskState) (sched : String)
    (ws : List Wrapper) (j : Job) : Option (TaskState × Nat) :=
  if valid sched then
    some ({ st with
            cronEntries := st.cronEntries ++ [⟨st.nextId, sched, ws, j⟩],
            nextId := st.nextId + 1 }, st.nextId)
  else none

/-- Models os.TempDir of the Go standard library on a Unix system without the
TMPDIR override. -/
def tempDir : String := "/tmp"

/-- Models filepath.Join for a directory and a file name, for already clean
inputs. -/
def joinPath (dir name : String) : String := dir ++ "/" ++ name

/-- Split a character list at every slash; the resulting parts never contain
a slash and always form a nonempty list. -/
def splitSlash : List Char → List (List Char)
  | [] => [[]]
  | c :: rest =>
    match splitSlash rest with
    | [] => [[c]]
    | h :: t => if c = '/' then [] :: h :: t else (c :: h) :: t

/-- Rejoin path parts with slashes. -/
def joinParts : List (List Char) → List Char
  | [] => []
  | [p] => p
  | p :: q :: rest => p ++ '/' :: joinParts (q :: rest)

/-- Models filepath.Base for cleaned paths without a trailing slash: the part
after the last slash. -/
def baseName (s : String) : String := String.mk ((splitSlash s.data).getLastD s.data)

/-- Models filepath.Dir for cleaned paths without a trailing slash: the part
before the last slash, or a dot when there is no slash. -/
def dirName (s : String) : String :=
  let parts := splitSlash s.data
  if parts.length ≤ 1 then "." else String.mk (joinParts parts.dropLast)

/-- The shell file name format of createCronJob: a dot (or dot test dash in
test mode), the base name of the config file, a dash, the decimal cron id, and
the sh suffix. -/
def shellFileName (testMode : Bool) (base : String) (id : Nat) : String :=
  (if testMode then ".test-" else ".") ++ base ++ "-" ++ natStr id ++ ".sh"

/-- The shell file path computed by createCronJob: the config file named
argument is first replaced by a file of that name in the temporary directory;
the artifact then lives in the directory of the config file under the
shellFileName format. -/
def shellFilePath (testMode : Bool) (configFile : String) (id : Nat) : String :=
  let cfg := if configFile = "argument" then joinPath tempDir "argument" else configFile
  joinPath (dirName cfg) (shellFileName testMode (baseName cfg) id)

/-- task.go createCronJob, first variant: chain the wrappers, register with
the cron table (an invalid schedule is reported as an error and registers
nothing), record the assigned id, compute the shell file path and save the
shell file (the file system is modelled as the list of saved paths). -/
def createCronJob (valid : String → Bool) (configFile : String) (st : TaskState)
    (j : Job) : Except String (TaskState × RegJob) :=
  match cronAddJob valid st j.Schedule (jobWrappers j.RunningMode) j with
  | none => Except.error ("invalid schedule [" ++ j.Schedule ++ "]")
  | some (st1, id) =>
    let sf := shellFilePath st.testMode configFile id
    Except.ok ({ st1 with files := st1.files ++ [sf] }, ⟨j, id, sf⟩)

/-- The loop body of AddJob over the remaining jobs of the batch, first
variant.  mkLog abstracts the fallible makeLogger collaborator of job.go.  The
accumulator collects the jobs processed so far; on the first error the loop
stops with the current state (mutations of earlier iterations persist) and the
accumulator is dropped; on success the accumulated jobs are appended to the
Jobs collection. -/
def addJobLoop (valid : String → Bool) (mkLog : Job → Option String)
    (configFile : String) (st : TaskState) (acc : List RegJob) :
    List Job → TaskState × List RegJob × Option String
  | [] => (st, acc, none)
  | j :: rest =>
    if j.Schedule = "" then (st, acc, some "schedule required")
    else if j.Command = "" then
      (st, acc, some ("command of schedule: \"" ++ j.Schedule ++ "\" required"))
    else
      match mkLog j with
      | some e => (st, acc, some e)
      | none =>
        match createCronJob valid configFile st j with
        | Except.error e => (st, acc, some e)
        | Except.ok (st1, rj) => addJobLoop valid mkLog configFile st1 (acc ++ [rj]) rest

/-- task.go AddJob, first variant: validate and register each job of the batch
in order, returning the first error; only when every job of the batch
succeeded are the jobs appended to the Jobs collection. -/
def AddJob (valid : String → Bool) (mkLog : Job → Option String)
    (configFile : String) (st : TaskState) (js : List Job) :
    TaskState × Option String :=
  match addJobLoop valid mkLog configFile st [] js with
  | (st1, acc, none) => ({ st1 with Jobs := st1.Jobs ++ acc }, none)
  | (st1, _, some e) => (st1, some e)

/-- The error produced by one iteration of the AddJob loop on a given job,
read off the branch structure of the loop body: empty schedule, then empty
command, then a makeLogger error, then a schedule rejected by the cron
parser; no error otherwise. -/
def jobErr (valid : String → Bool) (mkLog : Job → Option String) (j : Job) :
    Option String :=
  if j.Schedule = "" then some "schedule required"
  else if j.Command = "" then
    some ("command of schedule: \"" ++ j.Schedule ++ "\" required")
  else
    match mkLog j with
    | some e => some e
    | none => if valid j.Schedule then none else some ("invalid schedule [" ++ j.Schedule ++ "]")

/-- Modelled from the spec: deleteShellFile of job.go (not part of the two
embedded files) removes the on disk artifact of the job; the file system is
the list of existing paths. -/
def deleteShellFile (files : List String) (f : String) : List String :=
  files.filter (fun g => g ≠ f)

/-- The deferred cleanup of stopImpl: delete the shell file of every job of
the Jobs collection before returning. -/
def stopCleanup (st : TaskState) : TaskState :=
  { st with files := st.Jobs.foldl (fun fs j => deleteShellFile fs j.shellFile) st.files }

/-- The sleep of the drain loop of stopImpl, in milliseconds: the source
sleeps 100 seconds between polls. -/
def sleepMs : Nat := 100 * 1000

/-- The default stoppingTimeout set by NewTask, in milliseconds. -/
def stoppingTimeoutDefault : Nat := 3000

/-- The drain loop of stopImpl as a discrete poll loop over milliseconds.
running t is the value of the atomic runningCount at time t after the loop is
entered; doneAt is the time at which the Done channel of the drain context
closes, and isDeadline tells whether its error is DeadlineExceeded (in which
case the forced quit event is logged).  Each iteration first checks the loop
condition runningCount greater than zero, then polls the Done channel, and
otherwise sleeps sleepMs before the next iteration.  Returns the time at
which the loop exits and whether the forced quit event was logged. -/
def drainLoop (running : Nat → Nat) (doneAt : Nat) (isDeadline : Bool)
    (t : Nat) : Nat × Bool :=
  if running t = 0 then (t, false)
  else if doneAt ≤ t then (t, isDeadline)
  else drainLoop running doneAt isDeadline (t + sleepMs)
termination_by doneAt - t
decreasing_by simp only [sleepMs]; omega

/-- The drain performed by Stop, first variant: the drain context is the cron
stopping context (done at parentDoneAt, when the last cron dispatched job
returns) bounded by the stoppingTimeout; its error is DeadlineExceeded exactly
when the timeout fires no later than the parent. The loop starts at the
invocation time, taken as time zero. -/
def stopDrain (running : Nat → Nat) (parentDoneAt stoppingTimeout : Nat) :
    Nat × Bool :=
  drainLoop running (min parentDoneAt stoppingTimeout)
    (decide (stoppingTimeout ≤ parentDoneAt)) 0

end V1

namespace V2

/-- A job specification as consumed by the second variant of task.go: a cron
schedule, an ordered command list, and the overlap mode string. -/
structure Job where
  Name : String
  Schedule : String
  Commands : List String
  RunningMode : String
deriving DecidableEq

/-- An entry of the cron trigger table of the second variant. -/
structure CronEntry where
  id : Nat
  schedule : String
  wrappers : List V1.Wrapper
  job : Job
deriving DecidableEq

/-- The state of a Task in the second variant: the Jobs collection and the
cron trigger table with its id counter (this variant keeps no shell files). -/
structure TaskState where
  Jobs : List Job
  cronEntries : List CronEntry
  nextId : Nat
deriving DecidableEq

/-- Models Cron.AddJob of the robfig cron library for the second variant. -/
def cronAddJob (valid : String → Bool) (st : TaskState) (sched : String)
    (ws : List V1.Wrapper) (j : Job) : Option (TaskState × Nat) :=
  if valid sched then
    some ({ st with
            cronEntries := st.cronEntries ++ [⟨st.nextId, sched, ws, j⟩],
            nextId := st.nextId + 1 }, st.nextId)
  else none

/-- task.go createCronJob, second variant: chain the recover wrapper and the
serialization wrapper selected by RunningMode (the same switch as the first
variant), register with the cron table, record the assigned id. -/
def createCronJob (valid : String → Bool) (st : TaskState) (j : Job) :
    Except String (TaskState × Job) :=
  match cronAddJob valid st j.Schedule (V1.jobWrappers j.RunningMode) j with
  | none => Except.error ("invalid schedule [" ++ j.Schedule ++ "]")
  | some (st1, _) => Except.ok (st1, j)

/-- The loop body of AddJob over the remaining jobs of the batch, second
variant: the command check is on an empty command list. -/
def addJobLoop (valid : String → Bool) (mkLog : Job → Option String)
    (st : TaskState) (acc : List Job) :
    List Job → TaskState × List Job × Option String
  | [] => (st, acc, none)
  | j :: rest =>
    if j.Schedule = "" then (st, acc, some "schedule required")
    else if j.Commands.length < 1 then
      (st, acc, some ("command of schedule: \"" ++ j.Schedule ++ "\" required"))
    else
      match mkLog j with
      | some e => (st, acc, some e)
      | none =>
        match createCronJob valid st j with
        | Except.error e => (st, acc, some e)
        | Except.ok (st1, rj) => addJobLoop valid mkLog st1 (acc ++ [rj]) rest

/-- task.go AddJob, second variant. -/
def AddJob (valid : String → Bool) (mkLog : Job → Option String)
    (st : TaskState) (js : List Job) : TaskState × Option String :=
  match addJobLoop valid mkLog st [] js with
  | (st1, acc, none) => ({ st1 with Jobs := st1.Jobs ++ acc }, none)
  | (st1, _, some e) => (st1, some e)

/-- The error produced by one iteration of the AddJob loop of the second
variant on a given job, read off the branch structure of the loop body. -/
def jobErr (valid : String → Bool) (mkLog : Job → Option String) (j : Job) :
    Option String :=
  if j.Schedule = "" then some "schedule required"
  else if j.Commands.length < 1 then
    some ("command of schedule: \"" ++ j.Schedule ++ "\" required")
  else
    match mkLog j with
    | some e => some e
    | none =>
      if valid j.Schedule then none
      else some ("invalid schedule [" ++ j.Schedule ++ "]")

end V2

/-! Helper lemmas shared by the claim theorems. -/

lemma digitChar_inj_fin : ∀ a b : Fin 10,
    Nat.digitChar a.val = Nat.digitChar b.val → a = b := by decide

lemma digitChar_inj {a b : Nat} (ha : a < 10) (hb : b < 10)
    (h : Nat.digitChar a = Nat.digitChar b) : a = b :=
  congrArg Fin.val (digitChar_inj_fin ⟨a, ha⟩ ⟨b, hb⟩ h)

lemma map_digitChar_inj : ∀ xs ys : List Nat, (∀ x ∈ xs, x < 10) → (∀ y ∈ ys, y < 10) →
    xs.map Nat.digitChar = ys.map Nat.digitChar → xs = ys := by
  intro xs
  induction xs with
  | nil =>
    intro ys _ _ h
    cases ys with
    | nil => rfl
    | cons y ys => simp at h
  | cons x xs ih =>
    intro ys hx hy h
    cases ys with
    | nil => simp at h
    | cons y ys =>
      simp only [List.map_cons, List.cons.injEq] at h
      have hxy := digitChar_inj (hx x (by simp)) (hy y (by simp)) h.1
      have := ih ys (fun a ha => hx a (by simp [ha])) (fun a ha => hy a (by simp [ha])) h.2
      simp [hxy, this]

lemma natStr_zero_ne {b : Nat} (hb : b ≠ 0)
    (h : ("0" : String).data
        = (String.mk (((Nat.digits 10 b).map Nat.digitChar).reverse)).data) : False := by
  simp at h
  have hlen := congrArg List.length h
  simp at hlen
  obtain ⟨d, hd1⟩ : ∃ d, Nat.digits 10 b = [d] := by
    cases hdig : Nat.digits 10 b with
    | nil => rw [hdig] at hlen; simp at hlen
    | cons d t =>
      cases t with
      | nil => exact ⟨d, rfl⟩
      | cons d2 t2 => rw [hdig] at hlen; simp at hlen
  rw [hd1] at h
  simp at h
  have hdlt : d < 10 := Nat.digits_lt_base (by norm_num) (by rw [hd1]; simp)
  have hd0 : d = 0 := digitChar_inj hdlt (by norm_num) (by simpa using h.symm)
  have hofd := Nat.ofDigits_digits 10 b
  rw [hd1, hd0] at hofd
  simp [Nat.ofDigits] at hofd
  exact hb hofd.symm

lemma natStr_inj {a b : Nat} (h : natStr a = natStr b) : a = b := by
  unfold natStr at h
  by_cases ha : a = 0 <;> by_cases hb : b = 0
  · simp [ha, hb]
  · exfalso
    simp only [ha, hb, if_true, if_false, if_pos rfl, if_neg hb] at h
    exact natStr_zero_ne hb (congrArg String.data h)
  · exfalso
    simp only [ha, hb, if_pos rfl, if_neg ha] at h
    exact natStr_zero_ne ha (congrArg String.data h.symm)
  · simp only [ha, hb, if_neg ha, if_neg hb] at h
    have hd := congrArg String.data h
    simp at hd
    have hdig := map_digitChar_inj _ _
      (fun x hx => Nat.digits_lt_base (by norm_num) hx)
      (fun y hy => Nat.digits_lt_base (by norm_num) hy) hd
    exact Nat.digits_inj_iff.mp hdig

namespace V1

lemma shellFileName_inj (tm : Bool) (base : String) {i j : Nat}
    (h : shellFileName tm base i = shellFileName tm base j) : i = j := by
  unfold shellFileName at h
  have hd := congrArg String.data h
  simp only [String.data_append, List.append_assoc] at hd
  have h1 := List.append_cancel_left (List.append_cancel_left (List.append_cancel_left hd))
  have h2 := List.append_cancel_right h1
  exact natStr_inj (String.ext h2)

lemma shellFilePath_inj (tm : Bool) (cfg : String) {i j : Nat}
    (h : shellFilePath tm cfg i = shellFilePath tm cfg j) : i = j := by
  unfold shellFilePath joinPath at h
  have hd := congrArg String.data h
  simp only [String.data_append, List.append_assoc] at hd
  have h1 := List.append_cancel_left (List.append_cancel_left hd)
  exact shellFileName_inj tm _ (String.ext h1)

end V1

/-! Claim theorems. -/

/-- C10: truncateText returns s unchanged whenever max is at least the length
of s, and otherwise returns the first max bytes of s followed by three dots, a
result of length max plus three, which can exceed the length of the original
string. -/
theorem truncateText_spec (s : List Char) (max : Nat) :
    (s.length ≤ max → truncateText s max = s) ∧
    (max < s.length →
      truncateText s max = s.take max ++ [Char.ofNat 46, Char.ofNat 46, Char.ofNat 46] ∧
      (truncateText s max).length = max + 3) ∧
    (∃ s2 : List Char, ∃ m2 : Nat, m2 < s2.length ∧
      s2.length < (truncateText s2 m2).length) := by
  refine ⟨?_, ?_, ?_⟩
  · intro h
    simp [truncateText, h]
  · intro h
    have hnot : ¬ s.length ≤ max := by omega
    refine ⟨by simp [truncateText, hnot], ?_⟩
    simp [truncateText, hnot]
    omega
  · refine ⟨[Char.ofNat 97, Char.ofNat 98, Char.ofNat 99, Char.ofNat 100], 3, by norm_num, ?_⟩
    simp [truncateText]

/-- C10 witness at a concrete input: truncating a four byte string at three
bytes yields the three bytes plus three dots, of length six. -/
theorem truncateText_spec_witness :
    truncateText ['a', 'b', 'c', 'd'] 3
        = (['a', 'b', 'c', 'd'] : List Char).take 3
          ++ [Char.ofNat 46, Char.ofNat 46, Char.ofNat 46] ∧
    (truncateText ['a', 'b', 'c', 'd'] 3).length = 3 + 3 :=
  (truncateText_spec ['a', 'b', 'c', 'd'] 3).2.1 (by decide)

namespace V1

/-- C1: the claim states that Stop returns no later than the configured
stopping deadline and on deadline expiry logs a forced quit event and returns
without waiting further.  The code contradicts the timing: the drain loop of
stopImpl sleeps 100 seconds between polls although its own comment promises a
force quit after stoppingTimeout.  With one in flight job running for 200
seconds and the default 3000 ms timeout, Stop only returns at t = 100000 ms,
97 seconds after the deadline, logging the forced quit event only then. -/
theorem stop_exceeds_deadline :
    stopDrain (fun t => if t < 200000 then 1 else 0) 200000 stoppingTimeoutDefault
        = (100000, true) ∧
    stoppingTimeoutDefault < 100000 := by
  constructor
  · simp [stopDrain, stoppingTimeoutDefault, drainLoop, sleepMs]
  · simp [stoppingTimeoutDefault]

/-- C5: the claim states that when all in flight executions finish before the
deadline, Stop returns as soon as the in flight counter reaches zero.  The
code contradicts this: with the counter reaching zero at t = 1000 ms, well
before the default 3000 ms deadline, the drain loop is asleep for 100 seconds
and only returns at t = 100000 ms, long after both the counter hit zero and
the deadline passed. -/
theorem stop_not_prompt :
    stopDrain (fun t => if t < 1000 then 1 else 0) 1000 stoppingTimeoutDefault
        = (100000, false) ∧
    (if (1000 : Nat) < 1000 then (1 : Nat) else 0) = 0 ∧
    1000 < stoppingTimeoutDefault := by
  refine ⟨?_, by simp, by simp [stoppingTimeoutDefault]⟩
  simp [stopDrain, stoppingTimeoutDefault, drainLoop, sleepMs]

/-- C9: a RunningMode other than skip and delay (for example a misspelling)
selects no case of the switch in createCronJob, so only the recover wrapper is
applied (allow concurrent behaviour) and no error arises from the mode: with a
schedule the cron parser accepts, createCronJob succeeds. -/
theorem createCronJob_unknown_mode (valid : String → Bool) (cfg : String)
    (st : TaskState) (j : Job) (h1 : j.RunningMode ≠ "skip")
    (h2 : j.RunningMode ≠ "delay") (hv : valid j.Schedule = true) :
    jobWrappers j.RunningMode = [Wrapper.recover] ∧
    ∃ st1 rj, createCronJob valid cfg st j = Except.ok (st1, rj) := by
  constructor
  · simp [jobWrappers, h1, h2]
  · simp only [createCronJob, cronAddJob, hv, if_true]
    exact ⟨_, _, rfl⟩

/-- C9 witness: the misspelled mode Skip is treated as allow concurrent and
createCronJob succeeds on it. -/
theorem createCronJob_unknown_mode_witness :
    jobWrappers "Skip" = [Wrapper.recover] ∧
    ∃ st1 rj, createCronJob (fun _ => true) "a.yml" ⟨[], [], 0, [], false⟩
        ⟨"n", "* * * * *", "echo", "Skip"⟩ = Except.ok (st1, rj) :=
  createCronJob_unknown_mode (fun _ => true) "a.yml" ⟨[], [], 0, [], false⟩
    ⟨"n", "* * * * *", "echo", "Skip"⟩ (by decide) (by decide) rfl

/-- C4: every successful createCronJob registers the job wrapped in the chain
built from its RunningMode: the recover wrapper always comes first, so an
uncaught failure during execution is captured and logged instead of
propagating to the trigger loop; skip adds the skip if still running wrapper,
delay adds the delay if still running wrapper, and the empty mode adds no
serialization wrapper. -/
theorem createCronJob_policy (valid : String → Bool) (cfg : String)
    (st : TaskState) (j : Job) (st1 : TaskState) (rj : RegJob)
    (h : createCronJob valid cfg st j = Except.ok (st1, rj)) :
    st1.cronEntries
        = st.cronEntries ++ [⟨st.nextId, j.Schedule, jobWrappers j.RunningMode, j⟩] ∧
    (∃ ws, jobWrappers j.RunningMode = Wrapper.recover :: ws) ∧
    (j.RunningMode = "skip" →
      jobWrappers j.RunningMode = [Wrapper.recover, Wrapper.skipIfStillRunning]) ∧
    (j.RunningMode = "delay" →
      jobWrappers j.RunningMode = [Wrapper.recover, Wrapper.delayIfStillRunning]) ∧
    (j.RunningMode = "" → jobWrappers j.RunningMode = [Wrapper.recover]) := by
  unfold createCronJob cronAddJob at h
  by_cases hv : valid j.Schedule
  · simp only [hv, if_true, if_pos] at h
    obtain ⟨hst, _⟩ := Prod.mk.injEq .. ▸ (Except.ok.inj h)
    refine ⟨?_, ⟨_, rfl⟩, ?_, ?_, ?_⟩
    · rw [← hst]
    · intro hm; simp [jobWrappers, hm]
    · intro hm; simp [jobWrappers, hm]
    · intro hm; simp [jobWrappers, hm]
  · simp [hv] at h

/-- C4 witness: a concrete job with mode skip is registered with the recover
wrapper followed by the skip wrapper. -/
theorem createCronJob_policy_witness :
    ([⟨0, "* * * * *", [Wrapper.recover, Wrapper.skipIfStillRunning],
        ⟨"n", "* * * * *", "echo", "skip"⟩⟩] : List CronEntry)
        = [] ++ [⟨0, "* * * * *", jobWrappers "skip", ⟨"n", "* * * * *", "echo", "skip"⟩⟩] ∧
    (∃ ws, jobWrappers "skip" = Wrapper.recover :: ws) ∧
    ("skip" = "skip" → jobWrappers "skip" = [Wrapper.recover, Wrapper.skipIfStillRunning]) ∧
    ("skip" = "delay" → jobWrappers "skip" = [Wrapper.recover, Wrapper.delayIfStillRunning]) ∧
    ("skip" = "" → jobWrappers "skip" = [Wrapper.recover]) :=
  createCronJob_policy (fun _ => true) "a.yml" ⟨[], [], 0, [], false⟩
    ⟨"n", "* * * * *", "echo", "skip"⟩
    ⟨[], [⟨0, "* * * * *", [Wrapper.recover, Wrapper.skipIfStillRunning],
        ⟨"n", "* * * * *", "echo", "skip"⟩⟩], 1, ["./.a.yml-0.sh"], false⟩
    ⟨⟨"n", "* * * * *", "echo", "skip"⟩, 0, "./.a.yml-0.sh"⟩ rfl

/-- C7: the shell file of a registered job lives in the directory of the
source config file (in the temporary directory when the source is the
argument pseudo file), its name is built from the base name of the source
plus the assigned cron id, and two jobs sharing the same source but holding
different ids receive distinct paths; createCronJob assigns exactly this path
for the assigned id. -/
theorem shellFile_paths (tm : Bool) (cfg : String) (i j : Nat) (hne : i ≠ j) :
    shellFilePath tm cfg i ≠ shellFilePath tm cfg j ∧
    (cfg ≠ "argument" →
      shellFilePath tm cfg i = joinPath (dirName cfg) (shellFileName tm (baseName cfg) i)) ∧
    shellFilePath tm "argument" i = joinPath tempDir (shellFileName tm "argument" i) ∧
    (∀ (valid : String → Bool) (st : TaskState) (jb : Job) (st1 : TaskState) (rj : RegJob),
      createCronJob valid cfg st jb = Except.ok (st1, rj) →
      rj.shellFile = shellFilePath st.testMode cfg rj.id) := by
  refine ⟨fun h => hne (shellFilePath_inj tm cfg h), fun hcfg => by simp [shellFilePath, hcfg], ?_, ?_⟩
  · simp [shellFilePath, tempDir, joinPath]
    rfl
  · intro valid st jb st1 rj h
    unfold createCronJob cronAddJob at h
    by_cases hv : valid jb.Schedule
    · simp only [hv, if_true, if_pos] at h
      obtain ⟨_, hrj⟩ := Prod.mk.injEq .. ▸ (Except.ok.inj h)
      rw [← hrj]
    · simp [hv] at h

/-- C7 witness at a concrete source file and two concrete ids. -/
theorem shellFile_paths_witness :
    shellFilePath false "conf/a.yml" 1 ≠ shellFilePath false "conf/a.yml" 2 ∧
    ("conf/a.yml" ≠ "argument" →
      shellFilePath false "conf/a.yml" 1
        = joinPath (dirName "conf/a.yml") (shellFileName false (baseName "conf/a.yml") 1)) ∧
    shellFilePath false "argument" 1 = joinPath tempDir (shellFileName false "argument" 1) ∧
    (∀ (valid : String → Bool) (st : TaskState) (jb : Job) (st1 : TaskState) (rj : RegJob),
      createCronJob valid "conf/a.yml" st jb = Except.ok (st1, rj) →
      rj.shellFile = shellFilePath st.testMode "conf/a.yml" rj.id) :=
  shellFile_paths false "conf/a.yml" 1 2 (by decide)

lemma createCronJob_ok (valid : String → Bool) (cfg : String) (st : TaskState)
    (j : Job) (st1 : TaskState) (rj : RegJob)
    (h : createCronJob valid cfg st j = Except.ok (st1, rj)) :
    valid j.Schedule = true ∧
    st1 = { st with
            cronEntries := st.cronEntries
              ++ [⟨st.nextId, j.Schedule, jobWrappers j.RunningMode, j⟩],
            nextId := st.nextId + 1,
            files := st.files ++ [shellFilePath st.testMode cfg st.nextId] } ∧
    rj = ⟨j, st.nextId, shellFilePath st.testMode cfg st.nextId⟩ := by
  unfold createCronJob cronAddJob at h
  by_cases hv : valid j.Schedule
  · simp only [hv, if_true, if_pos] at h
    obtain ⟨hst, hrj⟩ := Prod.mk.injEq .. ▸ (Except.ok.inj h)
    exact ⟨hv, hst.symm, hrj.symm⟩
  · simp [hv] at h

lemma createCronJob_err (valid : String → Bool) (cfg : String) (st : TaskState)
    (j : Job) (hv : valid j.Schedule = false) :
    createCronJob valid cfg st j
      = Except.error ("invalid schedule [" ++ j.Schedule ++ "]") := by
  simp [createCronJob, cronAddJob, hv]

lemma addJobLoop_cons_err (valid : String → Bool) (mkLog : Job → Option String)
    (cfg : String) (st : TaskState) (acc : List RegJob) (j : Job) (rest : List Job)
    (e : String) (h : jobErr valid mkLog j = some e) :
    addJobLoop valid mkLog cfg st acc (j :: rest) = (st, acc, some e) := by
  unfold jobErr at h
  unfold addJobLoop
  by_cases h1 : j.Schedule = ""
  · simp only [if_pos h1] at h ⊢
    rw [Option.some.inj h]
  · by_cases h2 : j.Command = ""
    · simp only [if_neg h1, if_pos h2] at h ⊢
      rw [Option.some.inj h]
    · cases hm : mkLog j with
      | some e2 =>
        simp only [if_neg h1, if_neg h2, hm] at h ⊢
        rw [Option.some.inj h]
      | none =>
        simp only [if_neg h1, if_neg h2, hm] at h ⊢
        by_cases hv : valid j.Schedule
        · simp [hv] at h
        · have hb : valid j.Schedule = false := by simpa using hv
          rw [createCronJob_err valid cfg st j hb]
          simp only [hb, if_false, Bool.false_eq_true] at h
          rw [Option.some.inj h]

lemma addJobLoop_cons_ok (valid : String → Bool) (mkLog : Job → Option String)
    (cfg : String) (st : TaskState) (acc : List RegJob) (j : Job) (rest : List Job)
    (h : jobErr valid mkLog j = none) :
    addJobLoop valid mkLog cfg st acc (j :: rest)
      = addJobLoop valid mkLog cfg
          { st with
            cronEntries := st.cronEntries
              ++ [⟨st.nextId, j.Schedule, jobWrappers j.RunningMode, j⟩],
            nextId := st.nextId + 1,
            files := st.files ++ [shellFilePath st.testMode cfg st.nextId] }
          (acc ++ [⟨j, st.nextId, shellFilePath st.testMode cfg st.nextId⟩]) rest := by
  unfold jobErr at h
  by_cases h1 : j.Schedule = ""
  · simp [h1] at h
  by_cases h2 : j.Command = ""
  · simp [h1, h2] at h
  cases hm : mkLog j with
  | some e2 => simp [h1, h2, hm] at h
  | none =>
    simp only [if_neg h1, if_neg h2, hm] at h
    by_cases hv : valid j.Schedule
    · have hc : createCronJob valid cfg st j
          = Except.ok ({ st with
              cronEntries := st.cronEntries
                ++ [⟨st.nextId, j.Schedule, jobWrappers j.RunningMode, j⟩],
              nextId := st.nextId + 1,
              files := st.files ++ [shellFilePath st.testMode cfg st.nextId] },
            (⟨j, st.nextId, shellFilePath st.testMode cfg st.nextId⟩ : RegJob)) := by
        simp only [createCronJob, cronAddJob, hv, if_true, if_pos]
      simp only [addJobLoop, if_neg h1, if_neg h2, hm, hc]
    · simp [hv] at h

lemma jobErr_none_checks (valid : String → Bool) (mkLog : Job → Option String)
    (j : Job) (h : jobErr valid mkLog j = none) :
    j.Schedule ≠ "" ∧ j.Command ≠ "" := by
  unfold jobErr at h
  by_cases h1 : j.Schedule = ""
  · simp [h1] at h
  by_cases h2 : j.Command = ""
  · simp [h1, h2] at h
  exact ⟨h1, h2⟩

lemma addJobLoop_pre (valid : String → Bool) (mkLog : Job → Option String)
    (cfg : String) : ∀ (pre : List Job),
    (∀ p ∈ pre, jobErr valid mkLog p = none) →
    ∀ (st : TaskState) (acc : List RegJob) (rest : List Job),
    ∃ st2 regs ents,
      addJobLoop valid mkLog cfg st acc (pre ++ rest)
        = addJobLoop valid mkLog cfg st2 (acc ++ regs) rest ∧
      st2.Jobs = st.Jobs ∧
      st2.cronEntries = st.cronEntries ++ ents ∧
      ents.map CronEntry.job = pre ∧
      regs.map RegJob.base = pre := by
  intro pre
  induction pre with
  | nil =>
    intro _ st acc rest
    exact ⟨st, [], [], by simp, rfl, by simp, rfl, rfl⟩
  | cons p pre ih =>
    intro hpre st acc rest
    have hp : jobErr valid mkLog p = none := hpre p (by simp)
    have hstep := addJobLoop_cons_ok valid mkLog cfg st acc p (pre ++ rest) hp
    obtain ⟨st2, regs, ents, heq, hjobs, hents, hmap, hmap2⟩ :=
      ih (fun q hq => hpre q (by simp [hq]))
        { st with
          cronEntries := st.cronEntries
            ++ [⟨st.nextId, p.Schedule, jobWrappers p.RunningMode, p⟩],
          nextId := st.nextId + 1,
          files := st.files ++ [shellFilePath st.testMode cfg st.nextId] }
        (acc ++ [⟨p, st.nextId, shellFilePath st.testMode cfg st.nextId⟩]) rest
    refine ⟨st2,
      ⟨p, st.nextId, shellFilePath st.testMode cfg st.nextId⟩ :: regs,
      ⟨st.nextId, p.Schedule, jobWrappers p.RunningMode, p⟩ :: ents, ?_, ?_, ?_, ?_, ?_⟩
    · rw [List.cons_append, hstep, heq]
      simp
    · simpa using hjobs
    · simp only [hents]
      simp
    · simp [hmap]
    · simp [hmap2]

lemma addJobLoop_state (valid : String → Bool) (mkLog : Job → Option String)
    (cfg : String) : ∀ (js : List Job) (st : TaskState) (acc : List RegJob),
    (addJobLoop valid mkLog cfg st acc js).1.Jobs = st.Jobs ∧
    (∀ en ∈ (addJobLoop valid mkLog cfg st acc js).1.cronEntries,
      en ∈ st.cronEntries ∨ (en.job.Schedule ≠ "" ∧ en.job.Command ≠ "")) ∧
    (∀ rj ∈ (addJobLoop valid mkLog cfg st acc js).2.1,
      rj ∈ acc ∨ (rj.base.Schedule ≠ "" ∧ rj.base.Command ≠ "")) := by
  intro js
  induction js with
  | nil =>
    intro st acc
    exact ⟨rfl, fun en hen => Or.inl hen, fun rj hrj => Or.inl hrj⟩
  | cons j rest ih =>
    intro st acc
    cases herr : jobErr valid mkLog j with
    | some e =>
      rw [addJobLoop_cons_err valid mkLog cfg st acc j rest e herr]
      exact ⟨rfl, fun en hen => Or.inl hen, fun rj hrj => Or.inl hrj⟩
    | none =>
      obtain ⟨h1, h2⟩ := jobErr_none_checks valid mkLog j herr
      rw [addJobLoop_cons_ok valid mkLog cfg st acc j rest herr]
      obtain ⟨ihj, ihen, ihacc⟩ := ih
        { st with
          cronEntries := st.cronEntries
            ++ [⟨st.nextId, j.Schedule, jobWrappers j.RunningMode, j⟩],
          nextId := st.nextId + 1,
          files := st.files ++ [shellFilePath st.testMode cfg st.nextId] }
        (acc ++ [⟨j, st.nextId, shellFilePath st.testMode cfg st.nextId⟩])
      refine ⟨ihj, ?_, ?_⟩
      · intro en hen
        rcases ihen en hen with hen2 | hen2
        · simp only [List.mem_append, List.mem_singleton] at hen2
          rcases hen2 with hen3 | hen3
          · exact Or.inl hen3
          · subst hen3
            exact Or.inr ⟨h1, h2⟩
        · exact Or.inr hen2
      · intro rj2 hrj2
        rcases ihacc rj2 hrj2 with hrj3 | hrj3
        · simp only [List.mem_append, List.mem_singleton] at hrj3
          rcases hrj3 with hrj4 | hrj4
          · exact Or.inl hrj4
          · subst hrj4
            exact Or.inr ⟨h1, h2⟩
        · exact Or.inr hrj3

lemma addJobLoop_bad (valid : String → Bool) (mkLog : Job → Option String)
    (cfg : String) : ∀ (js : List Job) (st : TaskState) (acc : List RegJob),
    (∃ j ∈ js, j.Schedule = "" ∨ j.Command = "") →
    ((addJobLoop valid mkLog cfg st acc js).2.2).isSome := by
  intro js
  induction js with
  | nil =>
    intro st acc hbad
    simp at hbad
  | cons j rest ih =>
    intro st acc hbad
    cases herr : jobErr valid mkLog j with
    | some e =>
      rw [addJobLoop_cons_err valid mkLog cfg st acc j rest e herr]
      rfl
    | none =>
      obtain ⟨h1, h2⟩ := jobErr_none_checks valid mkLog j herr
      rw [addJobLoop_cons_ok valid mkLog cfg st acc j rest herr]
      have hbad2 : ∃ j2 ∈ rest, j2.Schedule = "" ∨ j2.Command = "" := by
        obtain ⟨j2, hj2, hbadj2⟩ := hbad
        rcases List.mem_cons.mp hj2 with hj3 | hj3
        · subst hj3
          rcases hbadj2 with hb | hb
          · exact absurd hb h1
          · exact absurd hb h2
        · exact ⟨j2, hj3, hbadj2⟩
      exact ih _ _ hbad2

/-- C2: when every job before position k of the batch passes validation and
registration and the job at position k fails, AddJob returns exactly the error
of that first failing job; the jobs after it contribute nothing, the earlier
jobs of the batch keep their cron table entries (one entry per earlier job, in
order, with no rollback), and the Jobs collection is left unchanged. -/
theorem addJob_first_error (valid : String → Bool) (mkLog : Job → Option String)
    (cfg : String) (st : TaskState) (pre : List Job) (j : Job) (post : List Job)
    (e : String) (hpre : ∀ p ∈ pre, jobErr valid mkLog p = none)
    (hj : jobErr valid mkLog j = some e) :
    (AddJob valid mkLog cfg st (pre ++ j :: post)).2 = some e ∧
    (AddJob valid mkLog cfg st (pre ++ j :: post)).1.Jobs = st.Jobs ∧
    ∃ ents, (AddJob valid mkLog cfg st (pre ++ j :: post)).1.cronEntries
        = st.cronEntries ++ ents ∧ ents.map CronEntry.job = pre := by
  obtain ⟨st2, regs, ents, heq, hjobs, hents, hmap, _⟩ :=
    addJobLoop_pre valid mkLog cfg pre hpre st [] (j :: post)
  have herr := addJobLoop_cons_err valid mkLog cfg st2 ([] ++ regs) j post e hj
  unfold AddJob
  rw [heq, herr]
  exact ⟨rfl, hjobs, ents, hents, hmap⟩

/-- C2 witness: a batch of one good job, one job with an empty schedule and a
trailing good job; AddJob reports the middle error, registers exactly the
first job in the cron table and leaves the Jobs collection unchanged. -/
theorem addJob_first_error_witness :
    (AddJob (fun s => s != "") (fun _ => none) "a.yml" ⟨[], [], 0, [], false⟩
        ([⟨"a", "@hourly", "echo 1", ""⟩] ++ ⟨"b", "", "echo 2", ""⟩
          :: [⟨"c", "@daily", "echo 3", ""⟩])).2 = some "schedule required" ∧
    (AddJob (fun s => s != "") (fun _ => none) "a.yml" ⟨[], [], 0, [], false⟩
        ([⟨"a", "@hourly", "echo 1", ""⟩] ++ ⟨"b", "", "echo 2", ""⟩
          :: [⟨"c", "@daily", "echo 3", ""⟩])).1.Jobs
      = (⟨[], [], 0, [], false⟩ : TaskState).Jobs ∧
    ∃ ents, (AddJob (fun s => s != "") (fun _ => none) "a.yml" ⟨[], [], 0, [], false⟩
        ([⟨"a", "@hourly", "echo 1", ""⟩] ++ ⟨"b", "", "echo 2", ""⟩
          :: [⟨"c", "@daily", "echo 3", ""⟩])).1.cronEntries
        = (⟨[], [], 0, [], false⟩ : TaskState).cronEntries ++ ents ∧
      ents.map CronEntry.job = [⟨"a", "@hourly", "echo 1", ""⟩] :=
  addJob_first_error (fun s => s != "") (fun _ => none) "a.yml"
    ⟨[], [], 0, [], false⟩ [⟨"a", "@hourly", "echo 1", ""⟩] ⟨"b", "", "echo 2", ""⟩
    [⟨"c", "@daily", "echo 3", ""⟩] "schedule required" (by decide) (by decide)

/-- C8: whenever AddJob returns an error, the Jobs collection of the task is
exactly what it was before the call; no job of the failing batch is appended,
so the shutdown cleanup, which iterates over the Jobs collection, never sees
them. -/
theorem addJob_error_jobs_unchanged (valid : String → Bool)
    (mkLog : Job → Option String) (cfg : String) (st : TaskState) (js : List Job)
    (e : String) (h : (AddJob valid mkLog cfg st js).2 = some e) :
    (AddJob valid mkLog cfg st js).1.Jobs = st.Jobs := by
  have hinv := (addJobLoop_state valid mkLog cfg js st []).1
  unfold AddJob at h ⊢
  cases hl : addJobLoop valid mkLog cfg st [] js with
  | mk st1 p =>
    obtain ⟨acc, err⟩ := p
    rw [hl] at hinv
    cases err with
    | none => rw [hl] at h; simp at h
    | some e2 => exact hinv

/-- C8 witness: a failing batch on a task that already holds one registered
job; the Jobs collection is unchanged by the failed call. -/
theorem addJob_error_jobs_unchanged_witness :
    (AddJob (fun s => s != "") (fun _ => none) "a.yml"
        ⟨[⟨⟨"z", "@daily", "echo 0", ""⟩, 0, "./.a.yml-0.sh"⟩], [], 1, [], false⟩
        [⟨"a", "@hourly", "echo 1", ""⟩, ⟨"b", "", "echo 2", ""⟩]).1.Jobs
      = (⟨[⟨⟨"z", "@daily", "echo 0", ""⟩, 0, "./.a.yml-0.sh"⟩], [], 1, [], false⟩
          : TaskState).Jobs :=
  addJob_error_jobs_unchanged (fun s => s != "") (fun _ => none) "a.yml"
    ⟨[⟨⟨"z", "@daily", "echo 0", ""⟩, 0, "./.a.yml-0.sh"⟩], [], 1, [], false⟩
    [⟨"a", "@hourly", "echo 1", ""⟩, ⟨"b", "", "echo 2", ""⟩]
    "schedule required" (by decide)

lemma foldl_delete_not_mem : ∀ (jobs : List RegJob) (fs : List String) (x : String),
    x ∈ jobs.foldl (fun acc j => deleteShellFile acc j.shellFile) fs →
    x ∈ fs ∧ ∀ j ∈ jobs, x ≠ j.shellFile := by
  intro jobs
  induction jobs with
  | nil => intro fs x h; simpa using h
  | cons j rest ih =>
    intro fs x h
    simp only [List.foldl_cons] at h
    obtain ⟨hmem, hrest⟩ := ih _ x h
    simp only [deleteShellFile, List.mem_filter, decide_eq_true_eq] at hmem
    refine ⟨hmem.1, ?_⟩
    intro j2 hj2
    rcases List.mem_cons.mp hj2 with hj2 | hj2
    · subst hj2
      exact hmem.2
    · exact hrest j2 hj2

/-- C6: the stop sequence deletes the shell file of every job of the Jobs
collection; after the cleanup that stopImpl defers to its return, no
registered job still has its artifact among the remaining files. -/
theorem stop_removes_artifacts (st : TaskState) (rj : RegJob) (h : rj ∈ st.Jobs) :
    rj.shellFile ∉ (stopCleanup st).files := by
  intro hmem
  obtain ⟨_, hall⟩ := foldl_delete_not_mem st.Jobs st.files rj.shellFile hmem
  exact hall rj h rfl

/-- C6 witness: a concrete state with one registered job whose artifact is on
disk; after cleanup the artifact is gone. -/
theorem stop_removes_artifacts_witness :
    (⟨⟨"n", "* * * * *", "echo", ""⟩, 0, "./.a.yml-0.sh"⟩ : RegJob).shellFile ∉
      (stopCleanup ⟨[⟨⟨"n", "* * * * *", "echo", ""⟩, 0, "./.a.yml-0.sh"⟩],
        [], 1, ["./.a.yml-0.sh"], false⟩).files :=
  stop_removes_artifacts
    ⟨[⟨⟨"n", "* * * * *", "echo", ""⟩, 0, "./.a.yml-0.sh"⟩], [], 1, ["./.a.yml-0.sh"], false⟩
    ⟨⟨"n", "* * * * *", "echo", ""⟩, 0, "./.a.yml-0.sh"⟩ (by decide)

lemma addJob_bad_isSome (valid : String → Bool) (mkLog : Job → Option String)
    (cfg : String) (st : TaskState) (js : List Job)
    (hbad : ∃ j ∈ js, j.Schedule = "" ∨ j.Command = "") :
    ((AddJob valid mkLog cfg st js).2).isSome := by
  have hb := addJobLoop_bad valid mkLog cfg js st [] hbad
  unfold AddJob
  cases hl : addJobLoop valid mkLog cfg st [] js with
  | mk st1 p =>
    obtain ⟨acc, err⟩ := p
    rw [hl] at hb
    cases err with
    | none => simp at hb
    | some e => simp

lemma addJob_entries_sub (valid : String → Bool) (mkLog : Job → Option String)
    (cfg : String) (st : TaskState) (js : List Job) :
    ∀ en ∈ (AddJob valid mkLog cfg st js).1.cronEntries,
      en ∈ st.cronEntries ∨ (en.job.Schedule ≠ "" ∧ en.job.Command ≠ "") := by
  have hinv := (addJobLoop_state valid mkLog cfg js st []).2.1
  unfold AddJob
  cases hl : addJobLoop valid mkLog cfg st [] js with
  | mk st1 p =>
    obtain ⟨acc, err⟩ := p
    rw [hl] at hinv
    cases err with
    | none => exact hinv
    | some e => exact hinv

lemma addJob_jobs_sub (valid : String → Bool) (mkLog : Job → Option String)
    (cfg : String) (st : TaskState) (js : List Job) :
    ∀ rj ∈ (AddJob valid mkLog cfg st js).1.Jobs,
      rj ∈ st.Jobs ∨ (rj.base.Schedule ≠ "" ∧ rj.base.Command ≠ "") := by
  have hinv := addJobLoop_state valid mkLog cfg js st []
  unfold AddJob
  cases hl : addJobLoop valid mkLog cfg st [] js with
  | mk st1 p =>
    obtain ⟨acc, err⟩ := p
    rw [hl] at hinv
    obtain ⟨hjobs, _, hacc⟩ := hinv
    cases err with
    | none =>
      intro rj hrj
      rcases List.mem_append.mp hrj with hmem | hmem
      · rw [hjobs] at hmem
        exact Or.inl hmem
      · rcases hacc rj hmem with hfalse | hgood
        · simp at hfalse
        · exact Or.inr hgood
    | some e =>
      intro rj hrj
      rw [hjobs] at hrj
      exact Or.inl hrj

end V1

namespace V2

lemma addJobLoop_cons_err2 (valid : String → Bool) (mkLog : Job → Option String)
    (st : TaskState) (acc : List Job) (j : Job) (rest : List Job) (e : String)
    (h : jobErr valid mkLog j = some e) :
    addJobLoop valid mkLog st acc (j :: rest) = (st, acc, some e) := by
  unfold jobErr at h
  unfold addJobLoop
  by_cases h1 : j.Schedule = ""
  · simp only [if_pos h1] at h ⊢
    rw [Option.some.inj h]
  · by_cases h2 : j.Commands.length < 1
    · simp only [if_neg h1, if_pos h2] at h ⊢
      rw [Option.some.inj h]
    · cases hm : mkLog j with
      | some e2 =>
        simp only [if_neg h1, if_neg h2, hm] at h ⊢
        rw [Option.some.inj h]
      | none =>
        simp only [if_neg h1, if_neg h2, hm] at h ⊢
        by_cases hv : valid j.Schedule
        · simp [hv] at h
        · have hb : valid j.Schedule = false := by simpa using hv
          have hverr : createCronJob valid st j
              = Except.error ("invalid schedule [" ++ j.Schedule ++ "]") := by
            simp [createCronJob, cronAddJob, hb]
          rw [hverr]
          simp only [hb, if_false, Bool.false_eq_true] at h
          rw [Option.some.inj h]

lemma addJobLoop_cons_ok2 (valid : String → Bool) (mkLog : Job → Option String)
    (st : TaskState) (acc : List Job) (j : Job) (rest : List Job)
    (h : jobErr valid mkLog j = none) :
    addJobLoop valid mkLog st acc (j :: rest)
      = addJobLoop valid mkLog
          { st with
            cronEntries := st.cronEntries
              ++ [⟨st.nextId, j.Schedule, V1.jobWrappers j.RunningMode, j⟩],
            nextId := st.nextId + 1 }
          (acc ++ [j]) rest := by
  unfold jobErr at h
  by_cases h1 : j.Schedule = ""
  · simp [h1] at h
  by_cases h2 : j.Commands.length < 1
  · simp [h1, h2] at h
  cases hm : mkLog j with
  | some e2 => simp [h1, h2, hm] at h
  | none =>
    simp only [if_neg h1, if_neg h2, hm] at h
    by_cases hv : valid j.Schedule
    · have hc : createCronJob valid st j
          = Except.ok ({ st with
              cronEntries := st.cronEntries
                ++ [⟨st.nextId, j.Schedule, V1.jobWrappers j.RunningMode, j⟩],
              nextId := st.nextId + 1 }, j) := by
        simp only [createCronJob, cronAddJob, hv, if_true, if_pos]
      simp only [addJobLoop, if_neg h1, if_neg h2, hm, hc]
    · simp [hv] at h

lemma jobErr_none_checks2 (valid : String → Bool) (mkLog : Job → Option String)
    (j : Job) (h : jobErr valid mkLog j = none) :
    j.Schedule ≠ "" ∧ j.Commands ≠ [] := by
  unfold jobErr at h
  by_cases h1 : j.Schedule = ""
  · simp [h1] at h
  by_cases h2 : j.Commands.length < 1
  · simp [h1, h2] at h
  refine ⟨h1, ?_⟩
  intro hnil
  rw [hnil] at h2
  simp at h2

lemma addJobLoop_state2 (valid : String → Bool) (mkLog : Job → Option String) :
    ∀ (js : List Job) (st : TaskState) (acc : List Job),
    (addJobLoop valid mkLog st acc js).1.Jobs = st.Jobs ∧
    (∀ en ∈ (addJobLoop valid mkLog st acc js).1.cronEntries,
      en ∈ st.cronEntries ∨ (en.job.Schedule ≠ "" ∧ en.job.Commands ≠ [])) ∧
    (∀ jb ∈ (addJobLoop valid mkLog st acc js).2.1,
      jb ∈ acc ∨ (jb.Schedule ≠ "" ∧ jb.Commands ≠ [])) := by
  intro js
  induction js with
  | nil =>
    intro st acc
    exact ⟨rfl, fun en hen => Or.inl hen, fun jb hjb => Or.inl hjb⟩
  | cons j rest ih =>
    intro st acc
    cases herr : jobErr valid mkLog j with
    | some e =>
      rw [addJobLoop_cons_err2 valid mkLog st acc j rest e herr]
      exact ⟨rfl, fun en hen => Or.inl hen, fun jb hjb => Or.inl hjb⟩
    | none =>
      obtain ⟨h1, h2⟩ := jobErr_none_checks2 valid mkLog j herr
      rw [addJobLoop_cons_ok2 valid mkLog st acc j rest herr]
      obtain ⟨ihj, ihen, ihacc⟩ := ih
        { st with
          cronEntries := st.cronEntries
            ++ [⟨st.nextId, j.Schedule, V1.jobWrappers j.RunningMode, j⟩],
          nextId := st.nextId + 1 }
        (acc ++ [j])
      refine ⟨ihj, ?_, ?_⟩
      · intro en hen
        rcases ihen en hen with hen2 | hen2
        · simp only [List.mem_append, List.mem_singleton] at hen2
          rcases hen2 with hen3 | hen3
          · exact Or.inl hen3
          · subst hen3
            exact Or.inr ⟨h1, h2⟩
        · exact Or.inr hen2
      · intro jb hjb
        rcases ihacc jb hjb with hjb2 | hjb2
        · simp only [List.mem_append, List.mem_singleton] at hjb2
          rcases hjb2 with hjb3 | hjb3
          · exact Or.inl hjb3
          · subst hjb3
            exact Or.inr ⟨h1, h2⟩
        · exact Or.inr hjb2

lemma addJobLoop_bad2 (valid : String → Bool) (mkLog : Job → Option String) :
    ∀ (js : List Job) (st : TaskState) (acc : List Job),
    (∃ j ∈ js, j.Schedule = "" ∨ j.Commands = []) →
    ((addJobLoop valid mkLog st acc js).2.2).isSome := by
  intro js
  induction js with
  | nil =>
    intro st acc hbad
    simp at hbad
  | cons j rest ih =>
    intro st acc hbad
    cases herr : jobErr valid mkLog j with
    | some e =>
      rw [addJobLoop_cons_err2 valid mkLog st acc j rest e herr]
      rfl
    | none =>
      obtain ⟨h1, h2⟩ := jobErr_none_checks2 valid mkLog j herr
      rw [addJobLoop_cons_ok2 valid mkLog st acc j rest herr]
      have hbad2 : ∃ j2 ∈ rest, j2.Schedule = "" ∨ j2.Commands = [] := by
        obtain ⟨j2, hj2, hbadj2⟩ := hbad
        rcases List.mem_cons.mp hj2 with hj3 | hj3
        · subst hj3
          rcases hbadj2 with hb | hb
          · exact absurd hb h1
          · exact absurd hb h2
        · exact ⟨j2, hj3, hbadj2⟩
      exact ih _ _ hbad2

lemma addJob_bad_isSome2 (valid : String → Bool) (mkLog : Job → Option String)
    (st : TaskState) (js : List Job)
    (hbad : ∃ j ∈ js, j.Schedule = "" ∨ j.Commands = []) :
    ((AddJob valid mkLog st js).2).isSome := by
  have hb := addJobLoop_bad2 valid mkLog js st [] hbad
  unfold AddJob
  cases hl : addJobLoop valid mkLog st [] js with
  | mk st1 p =>
    obtain ⟨acc, err⟩ := p
    rw [hl] at hb
    cases err with
    | none => simp at hb
    | some e => simp

lemma addJob_entries_sub2 (valid : String → Bool) (mkLog : Job → Option String)
    (st : TaskState) (js : List Job) :
    ∀ en ∈ (AddJob valid mkLog st js).1.cronEntries,
      en ∈ st.cronEntries ∨ (en.job.Schedule ≠ "" ∧ en.job.Commands ≠ []) := by
  have hinv := (addJobLoop_state2 valid mkLog js st []).2.1
  unfold AddJob
  cases hl : addJobLoop valid mkLog st [] js with
  | mk st1 p =>
    obtain ⟨acc, err⟩ := p
    rw [hl] at hinv
    cases err with
    | none => exact hinv
    | some e => exact hinv

lemma addJob_jobs_sub2 (valid : String → Bool) (mkLog : Job → Option String)
    (st : TaskState) (js : List Job) :
    ∀ jb ∈ (AddJob valid mkLog st js).1.Jobs,
      jb ∈ st.Jobs ∨ (jb.Schedule ≠ "" ∧ jb.Commands ≠ []) := by
  have hinv := addJobLoop_state2 valid mkLog js st []
  unfold AddJob
  cases hl : addJobLoop valid mkLog st [] js with
  | mk st1 p =>
    obtain ⟨acc, err⟩ := p
    rw [hl] at hinv
    obtain ⟨hjobs, _, hacc⟩ := hinv
    cases err with
    | none =>
      intro jb hjb
      rcases List.mem_append.mp hjb with hmem | hmem
      · rw [hjobs] at hmem
        exact Or.inl hmem
      · rcases hacc jb hmem with hfalse | hgood
        · simp at hfalse
        · exact Or.inr hgood
    | some e =>
      intro jb hjb
      rw [hjobs] at hjb
      exact Or.inl hjb

end V2

/-- C3: in both variants of task.go, a job specification with an empty
schedule or an empty command list makes AddJob fail, and such a job is never
registered: every cron table entry and every member of the Jobs collection
that the call adds has a nonempty schedule and a nonempty command, so the
trigger loop never invokes an invalid job. -/
theorem addJob_rejects_invalid (valid : String → Bool)
    (mkLog : V1.Job → Option String) (cfg : String) (st : V1.TaskState)
    (js : List V1.Job) (mkLog2 : V2.Job → Option String) (st2 : V2.TaskState)
    (js2 : List V2.Job) :
    ((∃ j ∈ js, j.Schedule = "" ∨ j.Command = "") →
      ((V1.AddJob valid mkLog cfg st js).2).isSome) ∧
    (∀ en ∈ (V1.AddJob valid mkLog cfg st js).1.cronEntries,
      en ∈ st.cronEntries ∨ (en.job.Schedule ≠ "" ∧ en.job.Command ≠ "")) ∧
    (∀ rj ∈ (V1.AddJob valid mkLog cfg st js).1.Jobs,
      rj ∈ st.Jobs ∨ (rj.base.Schedule ≠ "" ∧ rj.base.Command ≠ "")) ∧
    ((∃ j ∈ js2, j.Schedule = "" ∨ j.Commands = []) →
      ((V2.AddJob valid mkLog2 st2 js2).2).isSome) ∧
    (∀ en ∈ (V2.AddJob valid mkLog2 st2 js2).1.cronEntries,
      en ∈ st2.cronEntries ∨ (en.job.Schedule ≠ "" ∧ en.job.Commands ≠ [])) ∧
    (∀ jb ∈ (V2.AddJob valid mkLog2 st2 js2).1.Jobs,
      jb ∈ st2.Jobs ∨ (jb.Schedule ≠ "" ∧ jb.Commands ≠ [])) :=
  ⟨fun hbad => V1.addJob_bad_isSome valid mkLog cfg st js hbad,
   V1.addJob_entries_sub valid mkLog cfg st js,
   V1.addJob_jobs_sub valid mkLog cfg st js,
   fun hbad => V2.addJob_bad_isSome2 valid mkLog2 st2 js2 hbad,
   V2.addJob_entries_sub2 valid mkLog2 st2 js2,
   V2.addJob_jobs_sub2 valid mkLog2 st2 js2⟩

/-- C3 witness: concrete batches holding a job with an empty schedule (first
variant) and a job with an empty command list (second variant); AddJob fails
on both. -/
theorem addJob_rejects_invalid_witness :
    ((V1.AddJob (fun s => s != "") (fun _ => none) "a.yml" ⟨[], [], 0, [], false⟩
        [⟨"a", "", "echo 1", ""⟩]).2).isSome ∧
    ((V2.AddJob (fun s => s != "") (fun _ => none) ⟨[], [], 0⟩
        [⟨"b", "@daily", [], ""⟩]).2).isSome :=
  ⟨(addJob_rejects_invalid (fun s => s != "") (fun _ => none) "a.yml"
      ⟨[], [], 0, [], false⟩ [⟨"a", "", "echo 1", ""⟩] (fun _ => none) ⟨[], [], 0⟩
      [⟨"b", "@daily", [], ""⟩]).1 (by decide),
   (addJob_rejects_invalid (fun s => s != "") (fun _ => none) "a.yml"
      ⟨[], [], 0, [], false⟩ [⟨"a", "", "echo 1", ""⟩] (fun _ => none) ⟨[], [], 0⟩
      [⟨"b", "@daily", [], ""⟩]).2.2.2.1 (by decide)⟩

end CronCli
